import Mathlib

/-!
Verification of the triangle render pipeline (src/examples/triangle.rs)
against its natural-language specification.

Machine integers (`u32`) are embedded as `Nat` with explicit `% 2^32`
wherever Rust wrapping semantics matter; fallible operations return
`Option`.
-/

namespace TriangleSpec

/-- `2^32`, the modulus of Rust `u32` arithmetic. -/
def U32_SIZE : Nat := 2 ^ 32

/-! ## Pipeline specialization key

Embeds `TrianglePipelineKey` (a `bitflags` struct over `u32`) from
src/examples/triangle.rs. -/

/-- `TrianglePipelineKey`: a `u32` bit field. -/
structure TrianglePipelineKey where
  bits : Nat
deriving DecidableEq, Repr

namespace TrianglePipelineKey

/-- Flag constant `NONE = 0`. -/
def NONE : Nat := 0

/-- Flag constant `COLORED = 1 << 0`. -/
def COLORED : Nat := 1 <<< 0

/-- `MSAA_MASK_BITS: u32 = 0b111111`. -/
def MSAA_MASK_BITS : Nat := 0b111111

/-- `MSAA_SHIFT_BITS: u32 = 32 - 6`. -/
def MSAA_SHIFT_BITS : Nat := 32 - 6

/-- Flag constant `MSAA_RESERVED_BITS = MSAA_MASK_BITS << MSAA_SHIFT_BITS`. -/
def MSAA_RESERVED_BITS : Nat := MSAA_MASK_BITS <<< MSAA_SHIFT_BITS

/-- The union of all declared flag bits, `bitflags`' `Self::all().bits`. -/
def ALL_BITS : Nat := NONE ||| COLORED ||| MSAA_RESERVED_BITS

/-- `bitflags`' generated `from_bits`: succeeds iff `bits` holds no bit
outside the declared flags (`bits & !Self::all().bits == 0`, with `!` the
`u32` complement). -/
def from_bits (bits : Nat) : Option TrianglePipelineKey :=
  if bits &&& ((U32_SIZE - 1) ^^^ ALL_BITS) = 0 then some ⟨bits⟩ else none

/-- The `msaa_bits` value computed inside `from_msaa_samples`:
`((msaa_samples - 1) & MSAA_MASK_BITS) << MSAA_SHIFT_BITS` in wrapping
`u32` arithmetic (`x - 1` is `(x + 2^32 - 1) % 2^32`; the shift keeps the
low 32 bits). -/
def msaa_bits (msaa_samples : Nat) : Nat :=
  ((((msaa_samples + (U32_SIZE - 1)) % U32_SIZE) &&& MSAA_MASK_BITS) <<< MSAA_SHIFT_BITS) % U32_SIZE

/-- `TrianglePipelineKey::from_msaa_samples`, with the trailing `.unwrap()`
kept fallible: `none` models the panic branch of the unwrap. -/
def from_msaa_samples (msaa_samples : Nat) : Option TrianglePipelineKey :=
  from_bits (msaa_bits msaa_samples)

/-- The value `from_msaa_samples` unwraps to; legitimate because
`from_msaa_samples_eq` below proves the unwrap never hits the panic
branch. Used where the source calls `from_msaa_samples(..)` directly. -/
def from_msaa_samples_total (msaa_samples : Nat) : TrianglePipelineKey :=
  ⟨msaa_bits msaa_samples⟩

/-- `TrianglePipelineKey::msaa_samples`:
`((self.bits >> MSAA_SHIFT_BITS) & MSAA_MASK_BITS) + 1`. -/
def msaa_samples (self : TrianglePipelineKey) : Nat :=
  ((self.bits >>> MSAA_SHIFT_BITS) &&& MSAA_MASK_BITS) + 1

/-- For every value `m` below 64, `m <<< 26` holds only declared MSAA bits,
so `from_bits` succeeds on it and `msaa_samples` decodes `m + 1`. -/
theorem from_bits_msaa_field : ∀ m ∈ Finset.range 64,
    from_bits (m <<< MSAA_SHIFT_BITS) = some ⟨m <<< MSAA_SHIFT_BITS⟩ ∧
    msaa_samples ⟨m <<< MSAA_SHIFT_BITS⟩ = m + 1 := by decide

/-- The raw bits of `msaa_bits` equal `((n + 63) % 64) <<< 26`: the
sample count minus one, wrapped mod `2^32` and truncated mod 64, in the
high field. -/
theorem msaa_bits_eq (n : Nat) : msaa_bits n = ((n + 63) % 64) <<< MSAA_SHIFT_BITS := by
  have h63 : (MSAA_MASK_BITS : Nat) = 2 ^ 6 - 1 := by decide
  have hmod : ((n + (U32_SIZE - 1)) % U32_SIZE) &&& MSAA_MASK_BITS = (n + 63) % 64 := by
    rw [h63, Nat.and_pow_two_sub_one_eq_mod]
    have hdvd : (2 ^ 6 : Nat) ∣ U32_SIZE := by decide
    rw [Nat.mod_mod_of_dvd _ hdvd]
    show (n + (U32_SIZE - 1)) % 64 = (n + 63) % 64
    have : U32_SIZE - 1 = 4294967295 := by decide
    rw [this]
    omega
  have hlt : ((n + 63) % 64) <<< MSAA_SHIFT_BITS < U32_SIZE := by
    rw [Nat.shiftLeft_eq]
    have : (n + 63) % 64 < 64 := Nat.mod_lt _ (by decide)
    calc (n + 63) % 64 * 2 ^ MSAA_SHIFT_BITS < 64 * 2 ^ MSAA_SHIFT_BITS := by
          exact Nat.mul_lt_mul_of_lt_of_le this (le_refl _) (by decide)
      _ = U32_SIZE := by decide
  unfold msaa_bits
  rw [hmod, Nat.mod_eq_of_lt hlt]

/-- The `.unwrap()` inside `from_msaa_samples` never panics: `from_bits`
always succeeds on `msaa_bits`. -/
theorem from_msaa_samples_eq (n : Nat) :
    from_msaa_samples n = some (from_msaa_samples_total n) := by
  unfold from_msaa_samples from_msaa_samples_total
  rw [msaa_bits_eq]
  exact (from_bits_msaa_field _ (Finset.mem_range.mpr (Nat.mod_lt _ (by decide)))).1

end TrianglePipelineKey

end TriangleSpec

namespace TriangleSpec

open TrianglePipelineKey

/-- C1: for every sample count n in [1,64], decoding the key produced from
n returns n exactly: `msaa_samples (from_msaa_samples n) = n`. -/
theorem c1_msaa_samples_roundtrip : ∀ n ∈ Finset.Icc 1 64,
    (from_msaa_samples n).map msaa_samples = some n := by decide

/-- Witness for C1 at n = 4. -/
theorem c1_msaa_samples_roundtrip_witness :
    (from_msaa_samples 4).map msaa_samples = some 4 :=
  c1_msaa_samples_roundtrip 4 (by decide)

/-- C7: for every declared feature-flag value f (NONE or COLORED) and every
sample count n in [1,64], the combined key `from_msaa_samples n | f` still
decodes the sample count as n and keeps flag bit f readable independently;
the COLORED flag bit and the reserved MSAA bit range never overlap. -/
theorem c7_flags_msaa_independent :
    (∀ n ∈ Finset.Icc 1 64, ∀ f ∈ ({NONE, COLORED} : Finset Nat),
      msaa_samples ⟨(from_msaa_samples_total n).bits ||| f⟩ = n ∧
      ((from_msaa_samples_total n).bits ||| f) &&& f = f) ∧
    COLORED &&& MSAA_RESERVED_BITS = 0 := by decide

/-- Witness for C7 at n = 4, f = COLORED. -/
theorem c7_flags_msaa_independent_witness :
    msaa_samples ⟨(from_msaa_samples_total 4).bits ||| COLORED⟩ = 4 ∧
    ((from_msaa_samples_total 4).bits ||| COLORED) &&& COLORED = COLORED :=
  c7_flags_msaa_independent.1 4 (by decide) COLORED (by decide)

/-- C9: `from_msaa_samples` has no error path: for every input sample count
(including 0 and values above 64, under `u32` wrapping semantics) it
returns `some` key — the unwrap never panics — whose MSAA field is the
modulo-64 truncation of count − 1 (`(n + 63) % 64` equals `(n - 1) % 64` in
wrapping arithmetic), decoded back by `msaa_samples` as that value plus 1. -/
theorem c9_from_msaa_samples_no_error (n : Nat) :
    from_msaa_samples n = some ⟨((n + 63) % 64) <<< MSAA_SHIFT_BITS⟩ ∧
    msaa_samples ⟨((n + 63) % 64) <<< MSAA_SHIFT_BITS⟩ = (n + 63) % 64 + 1 := by
  have hm : (n + 63) % 64 ∈ Finset.range 64 :=
    Finset.mem_range.mpr (Nat.mod_lt _ (by decide))
  refine ⟨?_, (from_bits_msaa_field _ hm).2⟩
  rw [from_msaa_samples_eq]
  unfold from_msaa_samples_total
  rw [msaa_bits_eq]

end TriangleSpec

namespace TriangleSpec

/-! ## Simulation- and render-side data model -/

/-- ECS entity identifier. -/
abbrev Entity := Nat

/-- `Handle<Mesh>`: an asset identifier; `clone_weak` copies the id without
taking ownership. -/
structure Handle where
  id : Nat
  is_weak : Bool
deriving DecidableEq, Repr

/-- `Handle::clone_weak`. -/
def Handle.clone_weak (self : Handle) : Handle :=
  { self with is_weak := true }

/-- `TriangleMeshHandle(pub Handle<Mesh>)`. -/
structure TriangleMeshHandle where
  handle : Handle
deriving DecidableEq, Repr

/-- `TriangleMeshHandle::clone_weak`. -/
def TriangleMeshHandle.clone_weak (self : TriangleMeshHandle) : TriangleMeshHandle :=
  ⟨self.handle.clone_weak⟩

/-- A 4-component vector. Scalars are embedded as `Int`: the pipeline only
copies and order-compares these components, never performs float
arithmetic on them. -/
structure Vec4 where
  x : Int
  y : Int
  z : Int
  w : Int
deriving DecidableEq, Repr

/-- A column-major 4×4 matrix (`Mat4`); `w_axis` is the fourth column,
whose `z` component is the translation-Z entry (third row, fourth
column). -/
structure Mat4 where
  x_axis : Vec4
  y_axis : Vec4
  z_axis : Vec4
  w_axis : Vec4
deriving DecidableEq, Repr

/-- `GlobalTransform`, embedded by the affine matrix its `compute_matrix`
method produces (the claims only consume that matrix). -/
structure GlobalTransform where
  matrix : Mat4
deriving DecidableEq, Repr

/-- `GlobalTransform::compute_matrix`. -/
def GlobalTransform.compute_matrix (self : GlobalTransform) : Mat4 :=
  self.matrix

/-- `ComputedVisibility`. -/
structure ComputedVisibility where
  is_visible : Bool
deriving DecidableEq, Repr

/-- `TriangleUniform { transform: Mat4 }`, the per-instance uniform
record. -/
structure TriangleUniform where
  transform : Mat4
deriving DecidableEq, Repr

/-- One row of the extraction query
`Query<(Entity, &TriangleMeshHandle, &GlobalTransform, &ComputedVisibility)>`. -/
structure ExtractedRow where
  entity : Entity
  mesh_handle : TriangleMeshHandle
  tform : GlobalTransform
  vis : ComputedVisibility
deriving DecidableEq, Repr

/-- A render-side record spawned by extraction: the entity together with
the weak mesh-handle copy and the per-instance uniform. -/
abbrev RenderRecord := Entity × TriangleMeshHandle × TriangleUniform

/-- `extract_triangle_meshes`: filter the query rows by `vis.is_visible`,
then map each surviving row to
`(entity, (mesh_handle.clone_weak(), TriangleUniform { transform: tform.compute_matrix() }))`
and batch-insert the result. -/
def extract_triangle_meshes (q : List ExtractedRow) : List RenderRecord :=
  (q.filterMap fun r =>
      match r.vis.is_visible with
      | true => some (r.entity, r.mesh_handle, r.tform)
      | false => none)
    |>.map fun x => (x.1, x.2.1.clone_weak, ⟨x.2.2.compute_matrix⟩)

/-- Unfolding `extract_triangle_meshes` on a cons cell. -/
theorem extract_triangle_meshes_cons (r : ExtractedRow) (q : List ExtractedRow) :
    extract_triangle_meshes (r :: q) =
      (if r.vis.is_visible then
        [(r.entity, r.mesh_handle.clone_weak, ⟨r.tform.compute_matrix⟩)]
       else []) ++ extract_triangle_meshes q := by
  unfold extract_triangle_meshes
  cases h : r.vis.is_visible <;> simp [List.filterMap_cons, h]

/-- Every extracted record's entity comes from some query row. -/
theorem entity_mem_of_mem_extract {q : List ExtractedRow} {rec : RenderRecord}
    (h : rec ∈ extract_triangle_meshes q) : rec.1 ∈ q.map (·.entity) := by
  induction q with
  | nil => simp [extract_triangle_meshes] at h
  | cons a q ih =>
    rw [extract_triangle_meshes_cons] at h
    rcases List.mem_append.mp h with h1 | h2
    · cases hv : a.vis.is_visible <;> rw [hv] at h1 <;> simp at h1
      simp [h1]
    · exact List.mem_cons_of_mem _ (ih h2)

end TriangleSpec

namespace TriangleSpec

/-- C2: for every entity with a geometry handle, world transform and
visibility flag, extraction emits exactly one render-side record — the
entity with a weak handle copy and a uniform derived from the current
transform — when the flag is true, and no record for it when the flag is
false. -/
theorem c2_extraction_visible_records (q : List ExtractedRow)
    (hnd : (q.map (·.entity)).Nodup) (r : ExtractedRow) (hr : r ∈ q) :
    (extract_triangle_meshes q).filter (fun rec => rec.1 == r.entity) =
      if r.vis.is_visible then
        [(r.entity, r.mesh_handle.clone_weak, ⟨r.tform.compute_matrix⟩)]
      else [] := by
  induction q with
  | nil => cases hr
  | cons a q ih =>
    rw [extract_triangle_meshes_cons, List.filter_append]
    simp only [List.map_cons, List.nodup_cons] at hnd
    rcases List.mem_cons.mp hr with rfl | hrq
    · have hq : (extract_triangle_meshes q).filter (fun rec => rec.1 == r.entity) = [] := by
        apply List.filter_eq_nil_iff.mpr
        intro rec hrec hb
        exact hnd.1 ((eq_of_beq hb) ▸ entity_mem_of_mem_extract hrec)
      rw [hq]
      cases hv : r.vis.is_visible <;> simp [hv]
    · have hne : a.entity ≠ r.entity := by
        intro hEq
        exact hnd.1 (hEq ▸ List.mem_map_of_mem (·.entity) hrq)
      have h1 : ((if a.vis.is_visible then
          [(a.entity, a.mesh_handle.clone_weak,
            (⟨a.tform.compute_matrix⟩ : TriangleUniform))] else []).filter
            fun rec => rec.1 == r.entity) = [] := by
        cases hv : a.vis.is_visible <;> simp [hne]
      rw [h1, List.nil_append]
      exact ih hnd.2 hrq

/-- Witness for C2: two entities, one visible and one not. -/
theorem c2_extraction_visible_records_witness :
    (extract_triangle_meshes
        [⟨0, ⟨⟨5, false⟩⟩, ⟨⟨⟨0, 0, 0, 0⟩, ⟨0, 0, 0, 0⟩, ⟨0, 0, 0, 0⟩, ⟨0, 0, 3, 1⟩⟩⟩, ⟨true⟩⟩,
         ⟨1, ⟨⟨6, false⟩⟩, ⟨⟨⟨0, 0, 0, 0⟩, ⟨0, 0, 0, 0⟩, ⟨0, 0, 0, 0⟩, ⟨0, 0, 7, 1⟩⟩⟩, ⟨false⟩⟩]).filter
      (fun rec => rec.1 == 0) =
      [(0, TriangleMeshHandle.clone_weak ⟨⟨5, false⟩⟩,
        ⟨GlobalTransform.compute_matrix ⟨⟨⟨0, 0, 0, 0⟩, ⟨0, 0, 0, 0⟩, ⟨0, 0, 0, 0⟩, ⟨0, 0, 3, 1⟩⟩⟩⟩)] := by
  have h := c2_extraction_visible_records
    [⟨0, ⟨⟨5, false⟩⟩, ⟨⟨⟨0, 0, 0, 0⟩, ⟨0, 0, 0, 0⟩, ⟨0, 0, 0, 0⟩, ⟨0, 0, 3, 1⟩⟩⟩, ⟨true⟩⟩,
     ⟨1, ⟨⟨6, false⟩⟩, ⟨⟨⟨0, 0, 0, 0⟩, ⟨0, 0, 0, 0⟩, ⟨0, 0, 0, 0⟩, ⟨0, 0, 7, 1⟩⟩⟩, ⟨false⟩⟩]
    (by decide)
    ⟨0, ⟨⟨5, false⟩⟩, ⟨⟨⟨0, 0, 0, 0⟩, ⟨0, 0, 0, 0⟩, ⟨0, 0, 0, 0⟩, ⟨0, 0, 3, 1⟩⟩⟩, ⟨true⟩⟩
    (by decide)
  simpa using h

end TriangleSpec

namespace TriangleSpec

/-! ## Queue & Sort stage -/

/-- `Transparent2d` phase item: sort key, entity, cached pipeline id, draw
function id, optional batch range. -/
structure Transparent2d where
  sort_key : Int
  entity : Entity
  pipeline : Nat
  draw_function : Nat
  batch_range : Option (Nat × Nat)
deriving DecidableEq, Repr

/-- One queried view: its `VisibleEntities` and its
`RenderPhase<Transparent2d>` item list. -/
structure ViewPhase where
  visible_entities : List Entity
  phase_items : List Transparent2d
deriving DecidableEq, Repr

/-- The `Transparent2d` literal pushed by `queue_triangles` for one
`(entity, uniform)` pair: sort key is `uniform.transform.w_axis.z`, batch
range is `None`. -/
def queued_item (draw_function pipeline_id : Nat) (m : Entity × TriangleUniform) :
    Transparent2d :=
  { sort_key := m.2.transform.w_axis.z
    entity := m.1
    pipeline := pipeline_id
    draw_function := draw_function
    batch_range := none }

/-- `queue_triangles`: resolve the draw-function id and specialize the
pipeline for the current MSAA sample count once, then for each view walk
the extracted `(entity, uniform)` records, skip entities outside the
view's visible set, and push one `Transparent2d` item per remaining
record. The specialized-pipeline cache is render-framework state and is
embedded as the function `specialize_id` from key to cached pipeline id,
evaluated once before the view loop as in the source. -/
def queue_triangles (draw_function : Nat) (specialize_id : TrianglePipelineKey → Nat)
    (msaa_samples : Nat) (views : List ViewPhase)
    (meshes : List (Entity × TriangleUniform)) : List ViewPhase :=
  let key := TrianglePipelineKey.from_msaa_samples_total msaa_samples
  let pipeline_id := specialize_id key
  views.map fun view =>
    { view with
        phase_items := view.phase_items ++
          meshes.filterMap fun m =>
            if view.visible_entities.contains m.1 then
              some (queued_item draw_function pipeline_id m)
            else none }

/-- Modelled from the spec: the phase's sort step ("items are ordered by
ascending sort key; ties are broken by insertion order (stable sort
required)") runs in the render framework's sort-phase pass, outside this
repository's source; embedded as a stable merge sort on the sort key. -/
def sort_phase (items : List Transparent2d) : List Transparent2d :=
  items.mergeSort fun a b => decide (a.sort_key ≤ b.sort_key)

/-- The comparison used by `sort_phase` is transitive. -/
theorem sort_phase_le_trans (a b c : Transparent2d)
    (hab : decide (a.sort_key ≤ b.sort_key) = true)
    (hbc : decide (b.sort_key ≤ c.sort_key) = true) :
    decide (a.sort_key ≤ c.sort_key) = true := by
  simp only [decide_eq_true_eq] at *
  exact le_trans hab hbc

/-- The comparison used by `sort_phase` is total. -/
theorem sort_phase_le_total (a b : Transparent2d) :
    (decide (a.sort_key ≤ b.sort_key) || decide (b.sort_key ≤ a.sort_key)) = true := by
  simp only [Bool.or_eq_true, decide_eq_true_eq]
  exact Int.le_total _ _

/-- Every item produced by the per-view queue loop is the literal for some
input record. -/
theorem mem_queue_filterMap {visible : List Entity} {df pid : Nat}
    {meshes : List (Entity × TriangleUniform)} {it : Transparent2d}
    (h : it ∈ meshes.filterMap fun m =>
      if visible.contains m.1 then some (queued_item df pid m) else none) :
    ∃ m ∈ meshes, it = queued_item df pid m := by
  rcases List.mem_filterMap.mp h with ⟨m, hm, hif⟩
  refine ⟨m, hm, ?_⟩
  by_cases hc : visible.contains m.1 = true
  · rw [if_pos hc] at hif
    exact (Option.some_inj.mp hif).symm
  · rw [if_neg hc] at hif
    cases hif

/-- C10: within one run of `queue_triangles`, every item added across all
views carries the draw-function id and the pipeline id specialized once
from the current MSAA sample count before the view loop, and has an empty
batch range. -/
theorem c10_queue_items_uniform (df : Nat) (sp : TrianglePipelineKey → Nat)
    (ms : Nat) (views : List ViewPhase) (meshes : List (Entity × TriangleUniform)) :
    List.Forall₂ (fun v vout => ∃ added,
        vout.phase_items = v.phase_items ++ added ∧
        ∀ it ∈ added,
          it.draw_function = df ∧
          it.pipeline = sp (TrianglePipelineKey.from_msaa_samples_total ms) ∧
          it.batch_range = none)
      views (queue_triangles df sp ms views meshes) := by
  unfold queue_triangles
  rw [List.forall₂_map_right_iff]
  apply List.forall₂_same.mpr
  intro v _
  refine ⟨_, rfl, ?_⟩
  intro it hit
  rcases mem_queue_filterMap hit with ⟨m, _, rfl⟩
  exact ⟨rfl, rfl, rfl⟩

end TriangleSpec

namespace TriangleSpec

/-- With entity-distinct records, the per-view queue loop pushes exactly
one item for a record whose entity the view can see. -/
theorem filter_queued_singleton (visible : List Entity) (df pid : Nat)
    (meshes : List (Entity × TriangleUniform)) (hnd : (meshes.map Prod.fst).Nodup)
    (m : Entity × TriangleUniform) (hm : m ∈ meshes)
    (hvis : visible.contains m.1 = true) :
    ((meshes.filterMap fun m' =>
        if visible.contains m'.1 then some (queued_item df pid m') else none).filter
      fun it => it.entity == m.1) = [queued_item df pid m] := by
  induction meshes with
  | nil => cases hm
  | cons a rest ih =>
    simp only [List.map_cons, List.nodup_cons] at hnd
    rw [List.filterMap_cons]
    rcases List.mem_cons.mp hm with rfl | hrest
    · rw [if_pos hvis]
      have htail : ((rest.filterMap fun m' =>
          if visible.contains m'.1 then some (queued_item df pid m') else none).filter
            fun it => it.entity == m.1) = [] := by
        apply List.filter_eq_nil_iff.mpr
        intro it hit hb
        rcases mem_queue_filterMap hit with ⟨m', hm', rfl⟩
        have : m.1 = m'.1 := by simpa [queued_item] using eq_of_beq hb |>.symm
        exact hnd.1 (this ▸ List.mem_map_of_mem Prod.fst hm')
      rw [List.filter_cons, htail]
      simp [queued_item]
    · have hne : a.1 ≠ m.1 := by
        intro hEq
        exact hnd.1 (hEq ▸ List.mem_map_of_mem Prod.fst hrest)
      by_cases hc : visible.contains a.1 = true
      · rw [if_pos hc, List.filter_cons]
        have : ((queued_item df pid a).entity == m.1) = false := by
          simp [queued_item, hne]
        rw [this]
        simp only [Bool.false_eq_true, if_neg, ite_false]
        exact ih hnd.2 hrest
      · rw [if_neg hc]
        exact ih hnd.2 hrest

/-- C3: for every view, each extracted record whose entity is in the
view's visible set yields exactly one added draw item whose sort key is
the translation-Z component (`w_axis.z`) of that record's already-computed
uniform transform, and the phase sort orders items by ascending sort key,
permuting the list while keeping ties in insertion order (stable). -/
theorem c3_queue_sort_key_order (df : Nat) (sp : TrianglePipelineKey → Nat)
    (ms : Nat) (views : List ViewPhase) (meshes : List (Entity × TriangleUniform))
    (hnd : (meshes.map Prod.fst).Nodup) :
    (List.Forall₂ (fun v vout => ∃ added,
        vout.phase_items = v.phase_items ++ added ∧
        (∀ m ∈ meshes, m.1 ∈ v.visible_entities →
          added.filter (fun it => it.entity == m.1) =
            [queued_item df (sp (TrianglePipelineKey.from_msaa_samples_total ms)) m]) ∧
        (∀ it ∈ added, ∃ m ∈ meshes,
          it.entity = m.1 ∧ it.sort_key = m.2.transform.w_axis.z))
      views (queue_triangles df sp ms views meshes)) ∧
    ∀ items : List Transparent2d,
      (sort_phase items).Pairwise (fun a b => a.sort_key ≤ b.sort_key) ∧
      (sort_phase items).Perm items ∧
      ∀ a b : Transparent2d, List.Sublist [a, b] items → a.sort_key ≤ b.sort_key →
        List.Sublist [a, b] (sort_phase items) := by
  constructor
  · unfold queue_triangles
    rw [List.forall₂_map_right_iff]
    apply List.forall₂_same.mpr
    intro v _
    refine ⟨_, rfl, ?_, ?_⟩
    · intro m hm hv
      exact filter_queued_singleton v.visible_entities df _ meshes hnd m hm
        (List.elem_iff.mpr hv)
    · intro it hit
      rcases mem_queue_filterMap hit with ⟨m, hm, rfl⟩
      exact ⟨m, hm, rfl, rfl⟩
  · intro items
    refine ⟨?_, List.mergeSort_perm items _, ?_⟩
    · exact List.Pairwise.imp (fun h => of_decide_eq_true h)
        (List.sorted_mergeSort sort_phase_le_trans sort_phase_le_total items)
    · intro a b hsub hle
      exact List.pair_sublist_mergeSort sort_phase_le_trans sort_phase_le_total
        (decide_eq_true hle) hsub

end TriangleSpec

namespace TriangleSpec

/-- Witness for C3: one view seeing entities 0 and 1, instances at depths
5 and -2. -/
theorem c3_queue_sort_key_order_witness :
    (List.Forall₂ (fun v vout => ∃ added,
        vout.phase_items = v.phase_items ++ added ∧
        (∀ m ∈ ([(0, ⟨⟨⟨0, 0, 0, 0⟩, ⟨0, 0, 0, 0⟩, ⟨0, 0, 0, 0⟩, ⟨0, 0, 5, 1⟩⟩⟩),
                 (1, ⟨⟨⟨0, 0, 0, 0⟩, ⟨0, 0, 0, 0⟩, ⟨0, 0, 0, 0⟩, ⟨0, 0, -2, 1⟩⟩⟩)] :
                List (Entity × TriangleUniform)), m.1 ∈ v.visible_entities →
          added.filter (fun it => it.entity == m.1) = [queued_item 0 7 m]) ∧
        (∀ it ∈ added, ∃ m ∈ ([(0, ⟨⟨⟨0, 0, 0, 0⟩, ⟨0, 0, 0, 0⟩, ⟨0, 0, 0, 0⟩, ⟨0, 0, 5, 1⟩⟩⟩),
                 (1, ⟨⟨⟨0, 0, 0, 0⟩, ⟨0, 0, 0, 0⟩, ⟨0, 0, 0, 0⟩, ⟨0, 0, -2, 1⟩⟩⟩)] :
                List (Entity × TriangleUniform)),
          it.entity = m.1 ∧ it.sort_key = m.2.transform.w_axis.z))
      ([⟨[0, 1], []⟩] : List ViewPhase)
      (queue_triangles 0 (fun _ => 7) 4 [⟨[0, 1], []⟩]
        [(0, ⟨⟨⟨0, 0, 0, 0⟩, ⟨0, 0, 0, 0⟩, ⟨0, 0, 0, 0⟩, ⟨0, 0, 5, 1⟩⟩⟩),
         (1, ⟨⟨⟨0, 0, 0, 0⟩, ⟨0, 0, 0, 0⟩, ⟨0, 0, 0, 0⟩, ⟨0, 0, -2, 1⟩⟩⟩)])) ∧
    ∀ items : List Transparent2d,
      (sort_phase items).Pairwise (fun a b => a.sort_key ≤ b.sort_key) ∧
      (sort_phase items).Perm items ∧
      ∀ a b : Transparent2d, List.Sublist [a, b] items → a.sort_key ≤ b.sort_key →
        List.Sublist [a, b] (sort_phase items) :=
  c3_queue_sort_key_order 0 (fun _ => 7) 4 [⟨[0, 1], []⟩]
    [(0, ⟨⟨⟨0, 0, 0, 0⟩, ⟨0, 0, 0, 0⟩, ⟨0, 0, 0, 0⟩, ⟨0, 0, 5, 1⟩⟩⟩),
     (1, ⟨⟨⟨0, 0, 0, 0⟩, ⟨0, 0, 0, 0⟩, ⟨0, 0, 0, 0⟩, ⟨0, 0, -2, 1⟩⟩⟩)] (by decide)

/-! ## Per-frame replacement of the render-side record set -/

/-- Modelled from the spec: the render-side record set "is fully replaced
each frame, not incrementally patched" — the framework empties the render
world before each extract pass, so the frame's record set is computed by
`extract_triangle_meshes` from the current query rows alone, the previous
frame's records notwithstanding. -/
def frame_extract (_prev_records : List RenderRecord) (q : List ExtractedRow) :
    List RenderRecord :=
  extract_triangle_meshes q

/-- C4: the record set is fully replaced every frame — it does not depend
on the prior frame's records — so an entity whose visibility flag is false
this frame has no record and contributes no draw item in any view whose
phase starts this frame empty. -/
theorem c4_full_replacement (prev prev' : List RenderRecord) (q : List ExtractedRow)
    (hnd : (q.map (·.entity)).Nodup) (r : ExtractedRow) (hr : r ∈ q)
    (hvis : r.vis.is_visible = false) :
    frame_extract prev q = frame_extract prev' q ∧
    (∀ rec ∈ frame_extract prev q, rec.1 ≠ r.entity) ∧
    (∀ df sp ms (views : List ViewPhase),
      (∀ v ∈ views, v.phase_items = []) →
      ∀ vout ∈ queue_triangles df sp ms views
          ((frame_extract prev q).map fun rec => (rec.1, rec.2.2)),
        ∀ it ∈ vout.phase_items, it.entity ≠ r.entity) := by
  have hno : ∀ rec ∈ frame_extract prev q, rec.1 ≠ r.entity := by
    intro rec hrec hEq
    have hfilter := c2_extraction_visible_records q hnd r hr
    rw [hvis] at hfilter
    simp only [if_false, Bool.false_eq_true] at hfilter
    have : rec ∈ (extract_triangle_meshes q).filter fun x => x.1 == r.entity :=
      List.mem_filter.mpr ⟨hrec, by simp [hEq]⟩
    rw [hfilter] at this
    cases this
  refine ⟨rfl, hno, ?_⟩
  intro df sp ms views hempty vout hvout it hit
  unfold queue_triangles at hvout
  rcases List.mem_map.mp hvout with ⟨v, hv, rfl⟩
  simp only [hempty v hv, List.nil_append] at hit
  rcases mem_queue_filterMap hit with ⟨m, hm, rfl⟩
  rcases List.mem_map.mp hm with ⟨rec, hrec, rfl⟩
  exact fun hEq => hno rec hrec (by simpa [queued_item] using hEq)

/-- Witness for C4: a single entity that turned invisible, with a stale
record from the previous frame. -/
theorem c4_full_replacement_witness :
    frame_extract [(0, ⟨⟨9, true⟩⟩, ⟨⟨⟨0, 0, 0, 0⟩, ⟨0, 0, 0, 0⟩, ⟨0, 0, 0, 0⟩, ⟨0, 0, 4, 1⟩⟩⟩)]
        [⟨0, ⟨⟨9, false⟩⟩, ⟨⟨⟨0, 0, 0, 0⟩, ⟨0, 0, 0, 0⟩, ⟨0, 0, 0, 0⟩, ⟨0, 0, 4, 1⟩⟩⟩, ⟨false⟩⟩] =
      frame_extract []
        [⟨0, ⟨⟨9, false⟩⟩, ⟨⟨⟨0, 0, 0, 0⟩, ⟨0, 0, 0, 0⟩, ⟨0, 0, 0, 0⟩, ⟨0, 0, 4, 1⟩⟩⟩, ⟨false⟩⟩] ∧
    (∀ rec ∈ frame_extract
        [(0, ⟨⟨9, true⟩⟩, ⟨⟨⟨0, 0, 0, 0⟩, ⟨0, 0, 0, 0⟩, ⟨0, 0, 0, 0⟩, ⟨0, 0, 4, 1⟩⟩⟩)]
        [⟨0, ⟨⟨9, false⟩⟩, ⟨⟨⟨0, 0, 0, 0⟩, ⟨0, 0, 0, 0⟩, ⟨0, 0, 0, 0⟩, ⟨0, 0, 4, 1⟩⟩⟩, ⟨false⟩⟩],
      rec.1 ≠ 0) ∧
    (∀ df sp ms (views : List ViewPhase),
      (∀ v ∈ views, v.phase_items = []) →
      ∀ vout ∈ queue_triangles df sp ms views
          ((frame_extract
              [(0, ⟨⟨9, true⟩⟩, ⟨⟨⟨0, 0, 0, 0⟩, ⟨0, 0, 0, 0⟩, ⟨0, 0, 0, 0⟩, ⟨0, 0, 4, 1⟩⟩⟩)]
              [⟨0, ⟨⟨9, false⟩⟩, ⟨⟨⟨0, 0, 0, 0⟩, ⟨0, 0, 0, 0⟩, ⟨0, 0, 0, 0⟩, ⟨0, 0, 4, 1⟩⟩⟩,
                ⟨false⟩⟩]).map fun rec => (rec.1, rec.2.2)),
        ∀ it ∈ vout.phase_items, it.entity ≠ 0) :=
  c4_full_replacement
    [(0, ⟨⟨9, true⟩⟩, ⟨⟨⟨0, 0, 0, 0⟩, ⟨0, 0, 0, 0⟩, ⟨0, 0, 0, 0⟩, ⟨0, 0, 4, 1⟩⟩⟩)] []
    [⟨0, ⟨⟨9, false⟩⟩, ⟨⟨⟨0, 0, 0, 0⟩, ⟨0, 0, 0, 0⟩, ⟨0, 0, 0, 0⟩, ⟨0, 0, 4, 1⟩⟩⟩, ⟨false⟩⟩]
    (by decide)
    ⟨0, ⟨⟨9, false⟩⟩, ⟨⟨⟨0, 0, 0, 0⟩, ⟨0, 0, 0, 0⟩, ⟨0, 0, 0, 0⟩, ⟨0, 0, 4, 1⟩⟩⟩, ⟨false⟩⟩
    (by decide) (by decide)

end TriangleSpec

namespace TriangleSpec

/-! ## Draw Command Sequencer -/

/-- `wgpu::IndexFormat`. -/
inductive IndexFormat
  | Uint16
  | Uint32
deriving DecidableEq, Repr

/-- A GPU buffer handle. -/
structure GpuBuffer where
  id : Nat
deriving DecidableEq, Repr

/-- `GpuBufferInfo`: either an index buffer with its stored index format
and count, or a non-indexed vertex count. -/
inductive GpuBufferInfo
  | Indexed (buffer : GpuBuffer) (index_format : IndexFormat) (count : Nat)
  | NonIndexed (vertex_count : Nat)
deriving DecidableEq, Repr

/-- A GPU-resident mesh (`GpuMesh`): vertex buffer plus buffer info. -/
structure GpuMesh where
  vertex_buffer : GpuBuffer
  buffer_info : GpuBufferInfo
deriving DecidableEq, Repr

/-- A low-level call recorded on the `TrackedRenderPass`. `draw_indexed`
carries the index range `0..count`, base vertex 0 and instance range
`0..1` as `(count, 0, 1)`; `draw` carries `0..vertex_count, 0..1` as
`(vertex_count, 1)`. -/
inductive PassCommand
  | set_vertex_buffer (slot : Nat) (buffer : GpuBuffer)
  | set_index_buffer (buffer : GpuBuffer) (offset : Nat) (index_format : IndexFormat)
  | draw_indexed (index_count : Nat) (base_vertex : Int) (instance_count : Nat)
  | draw (vertex_count : Nat) (instance_count : Nat)
deriving DecidableEq, Repr

/-- `RenderCommandResult`. -/
inductive RenderCommandResult
  | Success
  | Failure
deriving DecidableEq, Repr

/-- `DrawTriangleMesh::render` for one draw item: resolve the item's mesh
handle in `RenderAssets<Mesh>` (lookup by handle id); on failure log and
return `Failure` with no pass commands; on success bind the vertex buffer,
then either bind the index buffer and issue one indexed draw with the
stored count and format, or issue one non-indexed draw with the stored
vertex count. -/
def draw_triangle_mesh_render (meshes : Nat → Option GpuMesh)
    (mesh_handle : TriangleMeshHandle) : RenderCommandResult × List PassCommand :=
  match meshes mesh_handle.handle.id with
  | none => (.Failure, [])
  | some gpu_mesh =>
    (.Success,
      PassCommand.set_vertex_buffer 0 gpu_mesh.vertex_buffer ::
        match gpu_mesh.buffer_info with
        | .Indexed buffer index_format count =>
            [PassCommand.set_index_buffer buffer 0 index_format,
             PassCommand.draw_indexed count 0 1]
        | .NonIndexed vertex_count =>
            [PassCommand.draw vertex_count 1])

/-- Number of draw calls (indexed or not) among recorded pass commands. -/
def count_draw_calls (cmds : List PassCommand) : Nat :=
  cmds.countP fun c =>
    match c with
    | .draw_indexed _ _ _ => true
    | .draw _ _ => true
    | _ => false

/-- Modelled from the spec: the sequencer "replays the sorted list,
emitting the bind/draw call sequence per item" and on a resolution
failure "skip[s] only that item, continuing with the remainder of the
list"; the replay loop lives in the render framework, so it is embedded
as a map running the per-item draw command (from the source) over every
item in order. `handle_of` gives each item entity's
`TriangleMeshHandle` component. -/
def sequence_draws (meshes : Nat → Option GpuMesh)
    (handle_of : Entity → TriangleMeshHandle) (items : List Transparent2d) :
    List (Entity × RenderCommandResult × List PassCommand) :=
  items.map fun it => (it.entity, draw_triangle_mesh_render meshes (handle_of it.entity))

/-- C5: the sequencer processes every sorted item in order — one output
per item, failures included. An item whose geometry handle resolves gets
exactly one draw call: indexed with the stored index count and format
when an index buffer exists, else non-indexed with the stored vertex
count. An item whose handle does not resolve is recorded as `Failure`,
issues no pass commands, and does not disturb the processing of the
remaining items. -/
theorem c5_sequencer_per_item (meshes : Nat → Option GpuMesh)
    (handle_of : Entity → TriangleMeshHandle) (items : List Transparent2d) :
    (sequence_draws meshes handle_of items).length = items.length ∧
    List.Forall₂ (fun it out =>
        out.1 = it.entity ∧
        (∀ gm, meshes (handle_of it.entity).handle.id = some gm →
          out.2.1 = .Success ∧
          count_draw_calls out.2.2 = 1 ∧
          (∀ buffer fmt cnt, gm.buffer_info = .Indexed buffer fmt cnt →
            out.2.2 = [.set_vertex_buffer 0 gm.vertex_buffer,
                       .set_index_buffer buffer 0 fmt,
                       .draw_indexed cnt 0 1]) ∧
          (∀ vc, gm.buffer_info = .NonIndexed vc →
            out.2.2 = [.set_vertex_buffer 0 gm.vertex_buffer, .draw vc 1])) ∧
        (meshes (handle_of it.entity).handle.id = none →
          out.2.1 = .Failure ∧ out.2.2 = []))
      items (sequence_draws meshes handle_of items) := by
  unfold sequence_draws
  refine ⟨by rw [List.length_map], ?_⟩
  rw [List.forall₂_map_right_iff]
  apply List.forall₂_same.mpr
  intro it _
  refine ⟨rfl, ?_, ?_⟩
  · intro gm hgm
    refine ⟨?_, ?_, ?_, ?_⟩
    · simp [draw_triangle_mesh_render, hgm]
    · cases hbi : gm.buffer_info <;>
        simp [draw_triangle_mesh_render, hgm, hbi, count_draw_calls,
          List.countP_cons, List.countP_nil]
    · intro b f c hEq
      simp [draw_triangle_mesh_render, hgm, hEq]
    · intro vc hEq
      simp [draw_triangle_mesh_render, hgm, hEq]
  · intro hnone
    constructor <;> simp [draw_triangle_mesh_render, hnone]

end TriangleSpec

namespace TriangleSpec

/-! ## Pipeline specialization (descriptor synthesis) -/

/-- `wgpu::VertexFormat` (the three formats the pipeline uses). -/
inductive VertexFormat
  | Float32x2
  | Float32x3
  | Float32x4
deriving DecidableEq, Repr

/-- `VertexFormat::size` in bytes. -/
def VertexFormat.size : VertexFormat → Nat
  | .Float32x2 => 8
  | .Float32x3 => 12
  | .Float32x4 => 16

/-- `wgpu::VertexAttribute`. -/
structure VertexAttribute where
  format : VertexFormat
  offset : Nat
  shader_location : Nat
deriving DecidableEq, Repr

/-- `wgpu::VertexStepMode`. -/
inductive VertexStepMode
  | Vertex
  | Instance
deriving DecidableEq, Repr

/-- `VertexBufferLayout`. -/
structure VertexBufferLayout where
  array_stride : Nat
  step_mode : VertexStepMode
  attributes : List VertexAttribute
deriving DecidableEq, Repr

/-- `VertexState`: shader handle id, entry point, defs, buffer layouts. -/
structure VertexState where
  shader : Nat
  entry_point : String
  shader_defs : List String
  buffers : List VertexBufferLayout
deriving DecidableEq, Repr

/-- `wgpu::BlendState` (the presets the embedding distinguishes). -/
inductive BlendState
  | ALPHA_BLENDING
  | REPLACE
deriving DecidableEq, Repr

/-- `wgpu::ColorTargetState`; `format` is an opaque texture-format tag and
`write_mask` the raw `ColorWrites` bits (`ALL = 0xf`). -/
structure ColorTargetState where
  format : Nat
  blend : Option BlendState
  write_mask : Nat
deriving DecidableEq, Repr

/-- `FragmentState`. -/
structure FragmentState where
  shader : Nat
  shader_defs : List String
  entry_point : String
  targets : List ColorTargetState
deriving DecidableEq, Repr

/-- `wgpu::FrontFace`. -/
inductive FrontFace
  | Ccw
  | Cw
deriving DecidableEq, Repr

/-- `wgpu::Face`. -/
inductive Face
  | Front
  | Back
deriving DecidableEq, Repr

/-- `wgpu::PrimitiveTopology`. -/
inductive PrimitiveTopology
  | PointList
  | LineList
  | LineStrip
  | TriangleList
  | TriangleStrip
deriving DecidableEq, Repr

/-- `wgpu::PolygonMode`. -/
inductive PolygonMode
  | Fill
  | Line
  | Point
deriving DecidableEq, Repr

/-- `wgpu::PrimitiveState`. -/
structure PrimitiveState where
  front_face : FrontFace
  cull_mode : Option Face
  unclipped_depth : Bool
  polygon_mode : PolygonMode
  conservative : Bool
  topology : PrimitiveTopology
  strip_index_format : Option IndexFormat
deriving DecidableEq, Repr

/-- `wgpu::DepthStencilState` (opaque: the source never constructs one,
only its absence matters). -/
structure DepthStencilState where
  format : Nat
deriving DecidableEq, Repr

/-- `wgpu::MultisampleState`. -/
structure MultisampleState where
  count : Nat
  mask : Nat
  alpha_to_coverage_enabled : Bool
deriving DecidableEq, Repr

/-- `RenderPipelineDescriptor`; `layout` lists bind-group-layout ids. -/
structure RenderPipelineDescriptor where
  vertex : VertexState
  fragment : Option FragmentState
  layout : Option (List Nat)
  primitive : PrimitiveState
  depth_stencil : Option DepthStencilState
  multisample : MultisampleState
  label : Option String
deriving DecidableEq, Repr

/-- `SHADER_HANDLE`'s weak-handle id. -/
def SHADER_HANDLE : Nat := 0xc648c90f09f1fe7d

/-- The texture format returned by `TextureFormat::bevy_default()`,
embedded as an opaque tag. -/
def bevy_default_texture_format : Nat := 0

/-- Raw bits of `wgpu::ColorWrites::ALL`. -/
def COLOR_WRITES_ALL : Nat := 0xf

/-- `TrianglePipeline`: the two bind-group layouts created at
initialization, embedded as opaque layout ids. -/
structure TrianglePipeline where
  view_layout : Nat
  mesh_layout : Nat
deriving DecidableEq, Repr

/-- `TrianglePipeline::specialize`: synthesizes the full pipeline
descriptor for a key — three fixed vertex attributes (position
`Float32x3` at offset 16, color `Float32x4` at offset 0, UV `Float32x2`
at offset 12 + 16), stride the sum of the attribute sizes, alpha-blended
fragment target, triangle-list topology with back culling and CCW front
face, no depth/stencil, multisample count decoded from the key. -/
def TrianglePipeline.specialize (self : TrianglePipeline)
    (key : TrianglePipelineKey) : RenderPipelineDescriptor :=
  let vertex_attributes : List VertexAttribute :=
    [{ format := .Float32x3, offset := 16, shader_location := 0 },
     { format := .Float32x4, offset := 0, shader_location := 1 },
     { format := .Float32x2, offset := 12 + 16, shader_location := 2 }]
  { vertex :=
      { shader := SHADER_HANDLE
        entry_point := "vertex"
        shader_defs := []
        buffers := [{ array_stride := (vertex_attributes.map (·.format.size)).sum
                      step_mode := .Vertex
                      attributes := vertex_attributes }] }
    fragment := some
      { shader := SHADER_HANDLE
        shader_defs := []
        entry_point := "fragment"
        targets := [{ format := bevy_default_texture_format
                      blend := some .ALPHA_BLENDING
                      write_mask := COLOR_WRITES_ALL }] }
    layout := some [self.view_layout, self.mesh_layout]
    primitive :=
      { front_face := .Ccw
        cull_mode := some .Back
        unclipped_depth := false
        polygon_mode := .Fill
        conservative := false
        topology := .TriangleList
        strip_index_format := none }
    depth_stencil := none
    multisample :=
      { count := key.msaa_samples
        mask := U32_SIZE - 1
        alpha_to_coverage_enabled := false }
    label := some "triangle pipeline" }

/-- C6: for every key, the descriptor produced by `specialize` has the
three fixed vertex attributes (position as 3 floats at offset 16, color
as 4 floats at offset 0, UV as 2 floats at offset 28), an alpha-blended
fragment output, triangle-list topology with back-face culling and CCW
front winding, no depth/stencil state, and a multisample count equal to
the sample count decoded from the key. -/
theorem c6_specialize_descriptor (p : TrianglePipeline) (key : TrianglePipelineKey) :
    ((p.specialize key).vertex.buffers.map (·.attributes)) =
      [[{ format := .Float32x3, offset := 16, shader_location := 0 },
        { format := .Float32x4, offset := 0, shader_location := 1 },
        { format := .Float32x2, offset := 28, shader_location := 2 }]] ∧
    ((p.specialize key).fragment.map fun fs => fs.targets.map (·.blend)) =
      some [some BlendState.ALPHA_BLENDING] ∧
    (p.specialize key).primitive.topology = PrimitiveTopology.TriangleList ∧
    (p.specialize key).primitive.cull_mode = some Face.Back ∧
    (p.specialize key).primitive.front_face = FrontFace.Ccw ∧
    (p.specialize key).depth_stencil = none ∧
    (p.specialize key).multisample.count = key.msaa_samples := by
  refine ⟨rfl, rfl, rfl, rfl, rfl, rfl, rfl⟩

end TriangleSpec

namespace TriangleSpec

/-! ## Bind Group Builder -/

/-- A buffer binding handed out by a uniform buffer
(`uniforms.binding()` returns `Option`: `none` while the buffer has no
storage). -/
structure BufferBinding where
  buffer : Nat
deriving DecidableEq, Repr

/-- One `wgpu::BindGroupEntry`. -/
structure BindGroupEntry where
  binding : Nat
  resource : BufferBinding
deriving DecidableEq, Repr

/-- A created bind group: its entries and the layout it conforms to. -/
structure BindGroup where
  entries : List BindGroupEntry
  layout : Nat
deriving DecidableEq, Repr

/-- `queue_view_bind_groups`: if the view uniform buffer exposes no
binding, return with nothing inserted; otherwise create and insert one
view bind group (entry 0 bound to the view binding, against the
pipeline's view layout) for every extracted view entity. -/
def queue_view_bind_groups (view_layout : Nat)
    (view_uniforms_binding : Option BufferBinding) (views : List Entity) :
    List (Entity × BindGroup) :=
  match view_uniforms_binding with
  | none => []
  | some view_binding =>
    views.map fun entity =>
      (entity, { entries := [{ binding := 0, resource := view_binding }]
                 layout := view_layout })

/-- `queue_mesh_bind_groups`: if the per-instance uniform buffer exposes
no binding, return with no resource inserted; otherwise insert the single
global mesh bind group (entry 0 bound to the instance binding, against
the pipeline's mesh layout). -/
def queue_mesh_bind_groups (mesh_layout : Nat)
    (mesh_uniforms_binding : Option BufferBinding) : Option BindGroup :=
  match mesh_uniforms_binding with
  | none => none
  | some binding =>
    some { entries := [{ binding := 0, resource := binding }]
           layout := mesh_layout }

/-- C8: each bind-group builder is a no-op (no insertion, no error) when
its backing uniform buffer has no storage; with storage, the view builder
inserts exactly one bind group per extracted view and the mesh builder
inserts exactly one global bind group resource. -/
theorem c8_bind_group_builders (view_layout mesh_layout : Nat)
    (b : BufferBinding) (views : List Entity) :
    queue_view_bind_groups view_layout none views = [] ∧
    queue_mesh_bind_groups mesh_layout none = none ∧
    (queue_view_bind_groups view_layout (some b) views).length = views.length ∧
    List.Forall₂ (fun e out =>
        out.1 = e ∧ out.2.layout = view_layout ∧
        out.2.entries = [{ binding := 0, resource := b }])
      views (queue_view_bind_groups view_layout (some b) views) ∧
    queue_mesh_bind_groups mesh_layout (some b) =
      some { entries := [{ binding := 0, resource := b }], layout := mesh_layout } := by
  refine ⟨rfl, rfl, by simp [queue_view_bind_groups], ?_, rfl⟩
  unfold queue_view_bind_groups
  rw [List.forall₂_map_right_iff]
  apply List.forall₂_same.mpr
  intro e _
  exact ⟨rfl, rfl, rfl⟩

end TriangleSpec
